import Mathlib

/-!
Shallow embedding of `allennlp/steps/dataloader.py`: the `TangoDataLoader`
family (fixed-size chunking, sampler-driven, exact-count wrapper, capped-count
wrapper) and theorems checking the natural-language specification against it.

Modelling conventions:
* `Instance` values are an arbitrary type `α`; batches are modelled as the
  groups of instances passed to the external collator `allennlp_collate`
  (the collator itself is an opaque external collaborator).
* Python generators are modelled by full production: an `__iter__` call is a
  function returning the finite list of items the generator yields when the
  caller drains it.
* `random.shuffle` on the private copy `list(self.instances)` is modelled by
  passing the drawn permutation explicitly as an argument.
-/

namespace Tango

/-- `more_itertools.chunked(iterable, n)` repeatedly takes `n` items from the
iterable and yields each non-empty group, so it yields `take n` then recurses
on `drop n`. The extra `bound` argument makes the recursion structural; it is
sound whenever `l.length ≤ bound` (with `n = 0`, `more_itertools.chunked`
yields nothing, because taking zero items immediately produces the sentinel
empty group — the `chunked` wrapper below guards that case). -/
def chunkedAux (n : Nat) : Nat → List α → List (List α)
  | _, [] => []
  | 0, _ :: _ => []
  | bound + 1, x :: xs => ((x :: xs).take n) :: chunkedAux n bound ((x :: xs).drop n)

/-- `more_itertools.chunked(l, n)` as a list of groups. -/
def chunked (n : Nat) (l : List α) : List (List α) :=
  if n = 0 then [] else chunkedAux n l.length l

/-- `BatchSizeDataLoader`: fixed-size chunking strategy (class attributes set
in `__init__`, lines 32-42 of the source). -/
structure BatchSizeDataLoader (α : Type) where
  instances : List α
  batch_size : Nat
  drop_last : Bool
  shuffle : Bool

/-- `BatchSizeDataLoader.num_batches_per_epoch` (source lines 44-49):
`batch_count = len(self.instances) / self.batch_size` is Python real division,
then `floor` under drop-last and `ceil` otherwise. -/
def BatchSizeDataLoader.num_batches_per_epoch (l : BatchSizeDataLoader α) : Option Nat :=
  let batch_count : ℚ := (l.instances.length : ℚ) / (l.batch_size : ℚ)
  if l.drop_last then some ⌊batch_count⌋₊ else some ⌈batch_count⌉₊

/-- `BatchSizeDataLoader.__iter__` (source lines 51-62), modelled with the
loader state threaded through.  If `shuffle` is set the source builds a fresh
private copy `list(self.instances)` and shuffles it in place
(`random.shuffle`), so iteration runs over a reordered copy and `self` is
never assigned to; the drawn reordering is the explicit argument `shuffled`.
Returns the groups passed to `allennlp_collate` — a group is yielded iff
`not self.drop_last or len(batch) >= self.batch_size` — together with the
loader state after the iteration. -/
def BatchSizeDataLoader.iterWithState (l : BatchSizeDataLoader α) (shuffled : List α) :
    List (List α) × BatchSizeDataLoader α :=
  let instances := if l.shuffle then shuffled else l.instances
  ((chunked l.batch_size instances).filter
      fun batch => !l.drop_last || l.batch_size ≤ batch.length,
    l)

/-- The groups one drained `__iter__` call passes to the collator. -/
def BatchSizeDataLoader.iterGroups (l : BatchSizeDataLoader α) (shuffled : List α) :
    List (List α) :=
  (l.iterWithState shuffled).1

/-- Natural ceiling of an exact rational division: for positive `n`,
`⌈m / n⌉ = (m + n - 1) / n` in natural-number division. -/
theorem nat_ceil_cast_div (m n : Nat) (hn : 0 < n) :
    ⌈(m : ℚ) / (n : ℚ)⌉₊ = (m + n - 1) / n := by
  have hnq : (0 : ℚ) < (n : ℚ) := by exact_mod_cast hn
  apply le_antisymm
  · rw [Nat.ceil_le, div_le_iff₀ hnq]
    have key : m ≤ ((m + n - 1) / n) * n := by
      have h := Nat.div_add_mod (m + n - 1) n
      have hr : (m + n - 1) % n < n := Nat.mod_lt _ hn
      have hmul : n * ((m + n - 1) / n) = ((m + n - 1) / n) * n := Nat.mul_comm _ _
      omega
    exact_mod_cast key
  · have hc : (m : ℚ) / n ≤ (⌈(m : ℚ) / n⌉₊ : ℚ) := Nat.le_ceil _
    rw [div_le_iff₀ hnq] at hc
    have hc' : m ≤ ⌈(m : ℚ) / (n : ℚ)⌉₊ * n := by exact_mod_cast hc
    have hlt : m + n - 1 < (⌈(m : ℚ) / (n : ℚ)⌉₊ + 1) * n := by
      have h : (⌈(m : ℚ) / (n : ℚ)⌉₊ + 1) * n = ⌈(m : ℚ) / (n : ℚ)⌉₊ * n + n := by ring
      omega
    exact Nat.lt_succ_iff.mp ((Nat.div_lt_iff_lt_mul hn).mpr hlt)

/-- Concatenating the chunks recovers the original list. -/
theorem chunkedAux_join (n : Nat) (hn : 0 < n) :
    ∀ (bound : Nat) (l : List α), l.length ≤ bound → (chunkedAux n bound l).flatten = l := by
  intro bound
  induction bound with
  | zero =>
    intro l hl
    cases l with
    | nil => simp [chunkedAux]
    | cons x xs => simp at hl
  | succ b ih =>
    intro l hl
    cases l with
    | nil => simp [chunkedAux]
    | cons x xs =>
      have hdrop : ((x :: xs).drop n).length ≤ b := by
        simp only [List.length_drop]
        simp at hl ⊢
        omega
      simp only [chunkedAux, List.flatten_cons]
      rw [ih _ hdrop, List.take_append_drop]

/-- The number of chunks is the ceiling `(|l| + n - 1) / n`. -/
theorem chunkedAux_length (n : Nat) (hn : 0 < n) :
    ∀ (bound : Nat) (l : List α), l.length ≤ bound →
      (chunkedAux n bound l).length = (l.length + n - 1) / n := by
  intro bound
  induction bound with
  | zero =>
    intro l hl
    cases l with
    | nil => simp [chunkedAux, Nat.div_eq_of_lt (by omega : n - 1 < n)]
    | cons x xs => simp at hl
  | succ b ih =>
    intro l hl
    cases l with
    | nil => simp [chunkedAux, Nat.div_eq_of_lt (by omega : n - 1 < n)]
    | cons x xs =>
      have hdrop : ((x :: xs).drop n).length ≤ b := by
        simp only [List.length_drop]
        simp at hl ⊢
        omega
      have hlen : (x :: xs).length = xs.length + 1 := by simp
      simp only [chunkedAux, List.length_cons]
      rw [ih _ hdrop]
      simp only [List.length_drop, List.length_cons]
      rcases le_or_lt (xs.length + 1) n with hle | hgt
      · have h1 : xs.length + 1 - n = 0 := by omega
        rw [h1]
        rw [Nat.div_eq_of_lt (by omega : 0 + n - 1 < n)]
        rw [Nat.div_eq_of_lt_le (by omega : 1 * n ≤ xs.length + 1 + n - 1)
          (by omega : xs.length + 1 + n - 1 < (1 + 1) * n)]
      · have h1 : xs.length + 1 - n + n - 1 = xs.length := by omega
        have h2 : xs.length + 1 + n - 1 = xs.length + n := by omega
        rw [h1, h2, Nat.add_div_right _ hn]

/-- Every chunk is non-empty and no longer than the chunk size. -/
theorem chunkedAux_mem (n : Nat) (hn : 0 < n) :
    ∀ (bound : Nat) (l : List α) (c : List α), c ∈ chunkedAux n bound l →
      c.length ≤ n ∧ c ≠ [] := by
  intro bound
  induction bound with
  | zero =>
    intro l c hc
    cases l with
    | nil => simp [chunkedAux] at hc
    | cons x xs => simp [chunkedAux] at hc
  | succ b ih =>
    intro l c hc
    cases l with
    | nil => simp [chunkedAux] at hc
    | cons x xs =>
      simp only [chunkedAux, List.mem_cons] at hc
      rcases hc with rfl | hc
      · constructor
        · simp [List.length_take]
        · cases n with
          | zero => omega
          | succ n => simp [List.take_succ_cons]
      · exact ih _ _ hc

/-- `chunked` version of `chunkedAux_join`. -/
theorem chunked_join (n : Nat) (hn : 0 < n) (l : List α) : (chunked n l).flatten = l := by
  rw [chunked, if_neg (by omega)]
  exact chunkedAux_join n hn _ l le_rfl

/-- `chunked` version of `chunkedAux_length`. -/
theorem chunked_length (n : Nat) (hn : 0 < n) (l : List α) :
    (chunked n l).length = (l.length + n - 1) / n := by
  rw [chunked, if_neg (by omega)]
  exact chunkedAux_length n hn _ l le_rfl

/-- `chunked` version of `chunkedAux_mem`. -/
theorem chunked_mem (n : Nat) (hn : 0 < n) (l : List α) (c : List α)
    (hc : c ∈ chunked n l) : c.length ≤ n ∧ c ≠ [] := by
  rw [chunked, if_neg (by omega)] at hc
  exact chunkedAux_mem n hn _ l c hc

/-- Under drop-last, the declared count is natural (floor) division. -/
theorem num_batches_eq_floor_div (l : BatchSizeDataLoader α) (_hb : 0 < l.batch_size)
    (hdl : l.drop_last = true) :
    l.num_batches_per_epoch = some (l.instances.length / l.batch_size) := by
  rw [BatchSizeDataLoader.num_batches_per_epoch]
  simp only [hdl, if_true]
  rw [Nat.floor_div_eq_div]

/-- Without drop-last, the declared count is ceiling division. -/
theorem num_batches_eq_ceil_div (l : BatchSizeDataLoader α) (hb : 0 < l.batch_size)
    (hdl : l.drop_last = false) :
    l.num_batches_per_epoch =
      some ((l.instances.length + l.batch_size - 1) / l.batch_size) := by
  rw [BatchSizeDataLoader.num_batches_per_epoch]
  simp only [hdl, Bool.false_eq_true, if_false]
  rw [nat_ceil_cast_div _ _ hb]

/-- The declared count of an empty instance set is `0` under either policy. -/
theorem num_batches_empty (l : BatchSizeDataLoader α) (hi : l.instances = []) :
    l.num_batches_per_epoch = some 0 := by
  rw [BatchSizeDataLoader.num_batches_per_epoch]
  rw [hi]
  cases hdl : l.drop_last <;> simp

/-- The list iterated over by `BatchSizeDataLoader.__iter__` has the same
length as the instance set, whether or not it was shuffled. -/
theorem iter_order_length (l : BatchSizeDataLoader α) (shuffled : List α)
    (hperm : shuffled.Perm l.instances) :
    (if l.shuffle then shuffled else l.instances).length = l.instances.length := by
  cases hs : l.shuffle <;> simp [hperm.length_eq]

/-- C4: for the fixed-size chunking strategy with a positive batch size,
`num_batches_per_epoch` returns the floor of `|instances| / batchSize` under
drop-last and the ceiling otherwise (stated via the equal natural-number
divisions `n / b` and `(n + b - 1) / b`), and returns `some 0` for an empty
instance set under either policy. -/
theorem C4_declared_count_floor_ceil (l : BatchSizeDataLoader α) :
    (0 < l.batch_size →
      l.num_batches_per_epoch =
        some (if l.drop_last then l.instances.length / l.batch_size
          else (l.instances.length + l.batch_size - 1) / l.batch_size)) ∧
    (l.instances = [] → l.num_batches_per_epoch = some 0) := by
  refine ⟨fun hb => ?_, num_batches_empty l⟩
  cases hdl : l.drop_last
  · simp only [Bool.false_eq_true, if_false]
    exact num_batches_eq_ceil_div l hb hdl
  · simp only [if_true]
    exact num_batches_eq_floor_div l hb hdl

/-- Witness for C4 at concrete inputs: 5 instances, batch size 2. -/
theorem C4_declared_count_floor_ceil_witness :
    (BatchSizeDataLoader.num_batches_per_epoch ⟨[0, 1, 2, 3, 4], 2, true, true⟩ = some 2) ∧
    (BatchSizeDataLoader.num_batches_per_epoch ⟨[0, 1, 2, 3, 4], 2, false, true⟩ = some 3) ∧
    (BatchSizeDataLoader.num_batches_per_epoch ⟨([] : List Nat), 2, false, true⟩ = some 0) := by
  refine ⟨?_, ?_, ?_⟩
  · have h := (C4_declared_count_floor_ceil
      (⟨[0, 1, 2, 3, 4], 2, true, true⟩ : BatchSizeDataLoader Nat)).1 (by decide)
    simpa using h
  · have h := (C4_declared_count_floor_ceil
      (⟨[0, 1, 2, 3, 4], 2, false, true⟩ : BatchSizeDataLoader Nat)).1 (by decide)
    simpa using h
  · exact (C4_declared_count_floor_ceil
      (⟨([] : List Nat), 2, false, true⟩ : BatchSizeDataLoader Nat)).2 rfl

/-- C5: with drop-last disabled and a positive batch size, the declared count
equals the number of groups one `__iter__` call actually produces, for every
instance set (`shuffled` is the reordered private copy drawn when `shuffle`
is set; it is unused when `shuffle` is off). -/
theorem C5_declared_count_matches_produced (l : BatchSizeDataLoader α)
    (shuffled : List α) (hdl : l.drop_last = false) (hb : 0 < l.batch_size)
    (hperm : shuffled.Perm l.instances) :
    some (l.iterGroups shuffled).length = l.num_batches_per_epoch := by
  rw [num_batches_eq_ceil_div l hb hdl]
  rw [BatchSizeDataLoader.iterGroups, BatchSizeDataLoader.iterWithState]
  simp only [hdl, Bool.not_false, Bool.true_or, List.filter_true]
  rw [chunked_length _ hb, iter_order_length l shuffled hperm]

/-- Witness for C5: 5 instances, batch size 2, no shuffle — 3 groups. -/
theorem C5_declared_count_matches_produced_witness :
    BatchSizeDataLoader.num_batches_per_epoch
      (⟨[0, 1, 2, 3, 4], 2, false, false⟩ : BatchSizeDataLoader Nat) = some 3 := by
  have h := C5_declared_count_matches_produced
    (⟨[0, 1, 2, 3, 4], 2, false, false⟩ : BatchSizeDataLoader Nat)
    [0, 1, 2, 3, 4] rfl (by decide) (List.Perm.refl _)
  rw [← h]
  decide

/-- C6: with drop-last enabled and a positive batch size, every group passed
to the collator has size exactly `batch_size`, and the declared count is the
floor `|instances| / batchSize` (natural-number division). -/
theorem C6_drop_last_full_groups (l : BatchSizeDataLoader α) (shuffled : List α)
    (hdl : l.drop_last = true) (hb : 0 < l.batch_size)
    (_hperm : shuffled.Perm l.instances) :
    (∀ g ∈ l.iterGroups shuffled, g.length = l.batch_size) ∧
    l.num_batches_per_epoch = some (l.instances.length / l.batch_size) := by
  refine ⟨fun g hg => ?_, num_batches_eq_floor_div l hb hdl⟩
  rw [BatchSizeDataLoader.iterGroups, BatchSizeDataLoader.iterWithState] at hg
  simp only [hdl, Bool.not_true, Bool.false_or, List.mem_filter,
    decide_eq_true_eq] at hg
  have hle := (chunked_mem _ hb _ _ hg.1).1
  omega

/-- Witness for C6: 5 instances, batch size 2, drop-last — groups of size 2,
declared count 2. -/
theorem C6_drop_last_full_groups_witness :
    (∀ g ∈ BatchSizeDataLoader.iterGroups
        (⟨[0, 1, 2, 3, 4], 2, true, false⟩ : BatchSizeDataLoader Nat) [0, 1, 2, 3, 4],
      g.length = 2) ∧
    BatchSizeDataLoader.num_batches_per_epoch
      (⟨[0, 1, 2, 3, 4], 2, true, false⟩ : BatchSizeDataLoader Nat) = some 2 := by
  have h := C6_drop_last_full_groups
    (⟨[0, 1, 2, 3, 4], 2, true, false⟩ : BatchSizeDataLoader Nat)
    [0, 1, 2, 3, 4] rfl (by decide) (List.Perm.refl _)
  exact ⟨h.1, h.2⟩

/-- C7: with shuffle enabled and drop-last disabled, the multiset of examples
across all groups of one epoch is exactly the original instance set (stated
as a permutation of the flattened output; `shuffled` ranges over all
reorderings the shuffle can draw, so this holds for repeated calls). -/
theorem C7_shuffle_preserves_multiset (l : BatchSizeDataLoader α)
    (shuffled : List α) (hs : l.shuffle = true) (hdl : l.drop_last = false)
    (hb : 0 < l.batch_size) (hperm : shuffled.Perm l.instances) :
    ((l.iterGroups shuffled).flatten).Perm l.instances := by
  rw [BatchSizeDataLoader.iterGroups, BatchSizeDataLoader.iterWithState]
  simp only [hs, if_true, hdl, Bool.not_false, Bool.true_or, List.filter_true]
  rw [chunked_join _ hb]
  exact hperm

/-- Witness for C7: instances `[0,1,2]`, drawn order `[2,0,1]`, batch size 2. -/
theorem C7_shuffle_preserves_multiset_witness :
    ((BatchSizeDataLoader.iterGroups
        (⟨[0, 1, 2], 2, false, true⟩ : BatchSizeDataLoader Nat) [2, 0, 1]).flatten).Perm
      [0, 1, 2] :=
  C7_shuffle_preserves_multiset
    (⟨[0, 1, 2], 2, false, true⟩ : BatchSizeDataLoader Nat)
    [2, 0, 1] rfl rfl (by decide) (by decide)

/-- C9: with shuffle enabled, one (drained) `__iter__` call leaves the
loader's shared instance sequence untouched — the state after iteration holds
the identical instance list — because the source copies `self.instances` into
a fresh private list before `random.shuffle` reorders it, and the groups are
chunks of that private reordered copy. -/
theorem C9_shuffle_no_mutation (l : BatchSizeDataLoader α) (shuffled : List α)
    (hs : l.shuffle = true) (_hperm : shuffled.Perm l.instances) :
    ((l.iterWithState shuffled).2).instances = l.instances ∧
    (l.iterWithState shuffled).1 =
      (chunked l.batch_size shuffled).filter
        (fun batch => !l.drop_last || l.batch_size ≤ batch.length) := by
  refine ⟨rfl, ?_⟩
  rw [BatchSizeDataLoader.iterWithState]
  simp only [hs, if_true]

/-- Witness for C9: instances `[0,1,2]`, drawn order `[2,0,1]`, batch size 2. -/
theorem C9_shuffle_no_mutation_witness :
    ((BatchSizeDataLoader.iterWithState
        (⟨[0, 1, 2], 2, false, true⟩ : BatchSizeDataLoader Nat) [2, 0, 1]).2).instances
      = [0, 1, 2] ∧
    (BatchSizeDataLoader.iterWithState
        (⟨[0, 1, 2], 2, false, true⟩ : BatchSizeDataLoader Nat) [2, 0, 1]).1
      = [[2, 0], [1]] := by
  have h := C9_shuffle_no_mutation
    (⟨[0, 1, 2], 2, false, true⟩ : BatchSizeDataLoader Nat) [2, 0, 1] rfl (by decide)
  refine ⟨h.1, ?_⟩
  rw [h.2]
  decide


/-- Abstract view of an inner `TangoDataLoader` as consumed by the two
epoch-length wrappers: its declared batch count (`num_batches_per_epoch`,
possibly unknown) and, for each `k`, the finite sequence of batches the
`k`-th call to `iter(inner)` produces when drained (fresh state per call —
e.g. a fresh shuffle).  Batches are opaque values of type `β`. -/
structure InnerStrategy (β : Type) where
  num_batches_per_epoch : Option Nat
  epochs : Nat → List β

/-- `MaxBatchesDataLoader`: capped-count wrapper (source lines 100-103). -/
structure MaxBatchesDataLoader (β : Type) where
  inner : InnerStrategy β
  max_batches_per_epoch : Nat

/-- `MaxBatchesDataLoader.num_batches_per_epoch` (source lines 105-110). -/
def MaxBatchesDataLoader.num_batches_per_epoch (l : MaxBatchesDataLoader β) : Option Nat :=
  match l.inner.num_batches_per_epoch with
  | none => none
  | some batches => some (min l.max_batches_per_epoch batches)

/-- The loop of `MaxBatchesDataLoader.__iter__` (source lines 112-117):
`for i, batch in enumerate(iter(self.inner)): if i >= max: return else yield`.
`i` is the enumeration counter; the input list is the inner epoch sequence
still to be pulled.  Returns the yielded batches together with the number of
elements the loop pulled from the inner iterator (pulling happens in the
`for` statement itself, *before* the `i >= max` test, so reaching the test at
`i = max` has already consumed one un-yielded element). -/
def maxBatchesRun (max_batches : Nat) : Nat → List β → List β × Nat
  | _, [] => ([], 0)
  | i, b :: rest =>
    if max_batches ≤ i then ([], 1)
    else
      let r := maxBatchesRun max_batches (i + 1) rest
      (b :: r.1, r.2 + 1)

/-- One drained `__iter__` call of the capped wrapper: requests the fresh
inner epoch sequence number `k` (`iter(self.inner)`) and runs the loop on it.
First component: yielded batches; second: elements consumed from the inner
sequence. -/
def MaxBatchesDataLoader.iterCall (l : MaxBatchesDataLoader β) (k : Nat) : List β × Nat :=
  maxBatchesRun l.max_batches_per_epoch 0 (l.inner.epochs k)

/-- `BatchesPerEpochDataLoader`: exact-count wrapper (source lines 81-84,
minus the cursor, which is threaded separately as `BpeCursor`). -/
structure BatchesPerEpochDataLoader (β : Type) where
  inner : InnerStrategy β
  batches_per_epoch : Nat

/-- The persistent cursor `self.iter` of the exact-count wrapper: the index of
the inner epoch it currently points into, and the still-unconsumed suffix of
that epoch's sequence. -/
structure BpeCursor (β : Type) where
  epochIdx : Nat
  rem : List β

/-- Consecutive successful `next(self.iter)` pulls of the `__iter__` loop of
`BatchesPerEpochDataLoader` (source lines 89-96): takes up to `need` batches
from the unconsumed suffix.  Returns the batches yielded, how many are still
needed (positive exactly when the suffix was exhausted first, i.e. when
`next` raised `StopIteration`), and the remaining suffix. -/
def bpeTake : Nat → List β → List β × Nat × List β
  | 0, rem => ([], 0, rem)
  | need + 1, [] => ([], need + 1, [])
  | need + 1, b :: rest =>
    let r := bpeTake need rest
    (b :: r.1, r.2)

/-- The `while batches_yielded < self.batches_per_epoch` loop of
`BatchesPerEpochDataLoader.__iter__` (source lines 89-96), from cursor
`⟨k, rem⟩`: pulls from the suffix; on `StopIteration` replaces the cursor by
a brand-new inner epoch (`self.iter = iter(self.inner)`, modelled as epoch
`k + 1`) and keeps pulling.  `fuel` bounds the number of restarts, which the
Python loop does not: with a permanently-empty inner strategy the source
loops forever, modelled by fuel running out (the fuel-exhaustion branch
returns what was yielded so far).  `bpeGo_length` below shows `fuel = need`
restarts always suffice when every inner epoch is non-empty. -/
def bpeGo (epochs : Nat → List β) : Nat → Nat → Nat → List β → List β × BpeCursor β
  | 0, need, k, rem =>
    let t := bpeTake need rem
    (t.1, ⟨k, t.2.2⟩)
  | fuel + 1, need, k, rem =>
    match bpeTake need rem with
    | (yielded, 0, rem2) => (yielded, ⟨k, rem2⟩)
    | (yielded, still + 1, _) =>
      let r := bpeGo epochs fuel (still + 1) (k + 1) (epochs (k + 1))
      (yielded ++ r.1, r.2)

/-- One drained `__iter__` call of the exact-count wrapper from cursor `s`:
yields until `batches_per_epoch` batches have been produced in this call,
restarting the cursor on exhaustion, and returns the batches together with
the cursor as it persists into the next call. -/
def BatchesPerEpochDataLoader.iterCall (l : BatchesPerEpochDataLoader β)
    (s : BpeCursor β) : List β × BpeCursor β :=
  bpeGo l.inner.epochs l.batches_per_epoch l.batches_per_epoch s.epochIdx s.rem

/-- The error taxonomy the specification prescribes for construction-time
validation.  The source module defines no such error and never raises one;
the type is needed to state the claim that it does. -/
inductive DataLoaderError : Type
  | invalidConfig : DataLoaderError

/-- `BatchSizeDataLoader.__init__` (source lines 32-42) as a fallible
constructor: the body only assigns the four attributes — it contains no
validation and no `raise` — so the translation always returns `Except.ok`. -/
def mkBatchSizeDataLoader (instances : List α) (batch_size : Nat)
    (drop_last : Bool) (shuffle : Bool) :
    Except DataLoaderError (BatchSizeDataLoader α) :=
  .ok ⟨instances, batch_size, drop_last, shuffle⟩

/-- `BatchesPerEpochDataLoader.__init__` (source lines 81-84) as a fallible
constructor: assigns `inner` and `batches_per_epoch` and creates the
persistent cursor `self.iter = iter(inner)` (the first inner epoch); no
validation, no `raise`. -/
def mkBatchesPerEpochDataLoader (inner : InnerStrategy β) (batches_per_epoch : Nat) :
    Except DataLoaderError (BatchesPerEpochDataLoader β × BpeCursor β) :=
  .ok (⟨inner, batches_per_epoch⟩, ⟨0, inner.epochs 0⟩)

/-- `MaxBatchesDataLoader.__init__` (source lines 101-103) as a fallible
constructor: assigns the two attributes; no validation, no `raise`. -/
def mkMaxBatchesDataLoader (inner : InnerStrategy β) (max_batches_per_epoch : Nat) :
    Except DataLoaderError (MaxBatchesDataLoader β) :=
  .ok ⟨inner, max_batches_per_epoch⟩

/-- The closed family of `TangoDataLoader` variants defined in the source
module, used to state facts about every variant at once.  The sampler variant
stores the external `BatchSampler`'s two opaque capabilities evaluated at the
stored instance sequence: the batch count `get_num_batches` returns and the
index groups `get_batch_indices` yields. -/
inductive TangoDataLoader (α : Type) : Type
  | batch_size (l : BatchSizeDataLoader α)
  | sampler (instances : List α) (sampler_count : Option Nat)
      (index_groups : List (List Nat))
  | batches_per_epoch (inner : TangoDataLoader α) (batches_per_epoch : Nat)
  | max_batches (inner : TangoDataLoader α) (max_batches_per_epoch : Nat)

/-- `num_batches_per_epoch` of each variant (source lines 44-49, 71-72,
86-87, 105-110). -/
def TangoDataLoader.num_batches_per_epoch : TangoDataLoader α → Option Nat
  | .batch_size l => l.num_batches_per_epoch
  | .sampler _ sampler_count _ => sampler_count
  | .batches_per_epoch _ t => some t
  | .max_batches inner c =>
    match inner.num_batches_per_epoch with
    | none => none
    | some batches => some (min c batches)

/-- `TangoDataLoader.__len__` (source lines 22-27): logs a deprecation
warning (a side effect outside the pure model) and then returns
`self.num_batches_per_epoch()`. -/
def TangoDataLoader.len (l : TangoDataLoader α) : Option Nat :=
  l.num_batches_per_epoch

/-- Characterization of the capped wrapper loop from counter `i`: it yields
the first `max - i` elements, and pulls one element more than it yields
whenever the sequence is long enough to reach the `i >= max` test. -/
theorem maxBatchesRun_spec (max_batches : Nat) :
    ∀ (xs : List β) (i : Nat),
      (maxBatchesRun max_batches i xs).1 = xs.take (max_batches - i) ∧
      (maxBatchesRun max_batches i xs).2 = min (max_batches - i + 1) xs.length := by
  intro xs
  induction xs with
  | nil => intro i; simp [maxBatchesRun]
  | cons b rest ih =>
    intro i
    rw [maxBatchesRun]
    rcases le_or_lt max_batches i with hle | hlt
    · rw [if_pos hle]
      have h0 : max_batches - i = 0 := by omega
      simp [h0]
    · rw [if_neg (by omega)]
      have h1 : max_batches - i = (max_batches - (i + 1)) + 1 := by omega
      refine ⟨?_, ?_⟩
      · simp only [(ih (i + 1)).1, h1, List.take_succ_cons]
      · simp only [(ih (i + 1)).2, List.length_cons]
        omega

/-- C1 (amended): each `__iter__` call of the capped wrapper requests one
fresh epoch sequence from the inner strategy and yields its first
`min(C, length)` batches; it consumes `min(C + 1, length)` elements of that
sequence — i.e. when the inner epoch has more than `C` batches, the loop
pulls exactly one element beyond the `C` it yields before stopping. -/
theorem C1_capped_wrapper_yield_consume (l : MaxBatchesDataLoader β) (k : Nat) :
    (l.iterCall k).1 = (l.inner.epochs k).take l.max_batches_per_epoch ∧
    (l.iterCall k).2 = min (l.max_batches_per_epoch + 1) (l.inner.epochs k).length := by
  have h := maxBatchesRun_spec l.max_batches_per_epoch (l.inner.epochs k) 0
  simpa [MaxBatchesDataLoader.iterCall] using h

/-- Counterexample to C1 as stated: with cap `C = 1` over an inner epoch of
three batches, the call yields one batch but consumes two elements of the
inner sequence — the loop pulls the second element before testing `i >= 1` —
so it does not stop "without consuming any element beyond the 1 yielded". -/
theorem C1_capped_wrapper_overconsumes_counterexample :
    ((⟨⟨some 3, fun _ => [10, 20, 30]⟩, 1⟩ : MaxBatchesDataLoader Nat).iterCall 0).1
      = [10] ∧
    ((⟨⟨some 3, fun _ => [10, 20, 30]⟩, 1⟩ : MaxBatchesDataLoader Nat).iterCall 0).2
      = 2 ∧
    ¬ ((⟨⟨some 3, fun _ => [10, 20, 30]⟩, 1⟩ : MaxBatchesDataLoader Nat).iterCall 0).2
      = ((⟨⟨some 3, fun _ => [10, 20, 30]⟩, 1⟩
          : MaxBatchesDataLoader Nat).iterCall 0).1.length := by
  decide

/-- C2 (amended): none of the three constructors validates its numeric
argument — each always succeeds and returns the assembled object, for every
batch size, target and cap, including `0`. -/
theorem C2_no_construction_validation (instances : List α) (batch_size : Nat)
    (drop_last shuffle : Bool) (inner : InnerStrategy β) (t c : Nat) :
    mkBatchSizeDataLoader instances batch_size drop_last shuffle =
      .ok ⟨instances, batch_size, drop_last, shuffle⟩ ∧
    mkBatchesPerEpochDataLoader inner t = .ok (⟨inner, t⟩, ⟨0, inner.epochs 0⟩) ∧
    mkMaxBatchesDataLoader inner c = .ok ⟨inner, c⟩ :=
  ⟨rfl, rfl, rfl⟩

/-- Counterexample to C2 as stated: constructing with batch size `0`, target
`0` and cap `0` raises nothing — each constructor returns a successfully
constructed object. -/
theorem C2_construction_succeeds_counterexample :
    mkBatchSizeDataLoader ([] : List Nat) 0 false true =
      .ok ⟨[], 0, false, true⟩ ∧
    mkBatchesPerEpochDataLoader (⟨some 1, fun _ => [0]⟩ : InnerStrategy Nat) 0 =
      .ok (⟨⟨some 1, fun _ => [0]⟩, 0⟩, ⟨0, [0]⟩) ∧
    mkMaxBatchesDataLoader (⟨some 1, fun _ => [0]⟩ : InnerStrategy Nat) 0 =
      .ok ⟨⟨some 1, fun _ => [0]⟩, 0⟩ :=
  ⟨rfl, rfl, rfl⟩

/-- `bpeTake` takes a prefix: it yields `take need`, still needs
`need - |rem|`, and leaves `drop need`. -/
theorem bpeTake_spec : ∀ (need : Nat) (rem : List β),
    (bpeTake need rem).1 = rem.take need ∧
    (bpeTake need rem).2.1 = need - rem.length ∧
    (bpeTake need rem).2.2 = rem.drop need := by
  intro need
  induction need with
  | zero => intro rem; simp [bpeTake]
  | succ n ih =>
    intro rem
    cases rem with
    | nil => simp [bpeTake]
    | cons b rest =>
      have h := ih rest
      simp only [bpeTake, List.take_succ_cons, List.drop_succ_cons, List.length_cons]
      refine ⟨by rw [h.1], by rw [h.2.1]; omega, h.2.2⟩

/-- As long as every inner epoch is non-empty, the restart loop yields
exactly `need` batches whenever `need ≤ fuel + |rem|`; in particular
`fuel = need` restarts always suffice. -/
theorem bpeGo_length (epochs : Nat → List β) (hne : ∀ j, epochs j ≠ []) :
    ∀ (fuel need k : Nat) (rem : List β), need ≤ fuel + rem.length →
      ((bpeGo epochs fuel need k rem).1).length = need := by
  intro fuel
  induction fuel with
  | zero =>
    intro need k rem h
    simp only [bpeGo, (bpeTake_spec need rem).1, List.length_take]
    omega
  | succ f ih =>
    intro need k rem h
    have ht := bpeTake_spec need rem
    rcases hbt : bpeTake need rem with ⟨yielded, still, rem2⟩
    rw [hbt] at ht
    simp only at ht
    rw [bpeGo, hbt]
    cases still with
    | zero =>
      simp only
      rw [ht.1, List.length_take]
      omega
    | succ st =>
      simp only [List.length_append]
      have hlen : (epochs (k + 1)).length ≥ 1 := by
        have := hne (k + 1)
        cases hx : epochs (k + 1) with
        | nil => exact absurd hx this
        | cons a l => simp [hx]
      rw [ih (st + 1) (k + 1) (epochs (k + 1)) (by omega)]
      rw [ht.1, List.length_take]
      omega

/-- C3 (amended): with every inner epoch non-empty, each drained `__iter__`
call of the exact-count wrapper yields exactly `batches_per_epoch` batches,
pulled from the persistent cursor `s` (which may sit mid-epoch, carrying over
from the previous call) and restarting with brand-new inner epochs as often
as the cursor exhausts.  A call may so span more than two inner epochs — see
the counterexample for the spec's concrete case. -/
theorem C3_exact_count_yields_target (l : BatchesPerEpochDataLoader β)
    (s : BpeCursor β) (hne : ∀ j, l.inner.epochs j ≠ []) :
    ((l.iterCall s).1).length = l.batches_per_epoch := by
  apply bpeGo_length _ hne
  omega

/-- Witness for C3: inner strategy with epochs of 3 batches, target 7,
starting from the construction-time cursor. -/
theorem C3_exact_count_yields_target_witness :
    ((BatchesPerEpochDataLoader.iterCall
        (⟨⟨some 3, fun k => [3 * k, 3 * k + 1, 3 * k + 2]⟩, 7⟩
          : BatchesPerEpochDataLoader Nat)
        ⟨0, [0, 1, 2]⟩).1).length = 7 :=
  C3_exact_count_yields_target _ _ (fun _ => List.cons_ne_nil _ _)

/-- Counterexample to C3's concrete case: with inner epochs of 3 batches
(epoch `k` is `[3k, 3k+1, 3k+2]`, so batch `b` belongs to inner epoch
`b / 3`) and target 7, the first call yields `[0,1,2,3,4,5,6]` — batches
1,2,3 of epoch 0, then 1,2,3 of epoch 1, then batch 1 of epoch 2 — spanning
three distinct inner epochs, not the two epochs ("1,2,3 then 1,2,3,4 of a
fresh one") the claim describes; the cursor carries offset 1 of epoch 2 into
the next call. -/
theorem C3_spans_three_epochs_counterexample :
    (BatchesPerEpochDataLoader.iterCall
        (⟨⟨some 3, fun k => [3 * k, 3 * k + 1, 3 * k + 2]⟩, 7⟩
          : BatchesPerEpochDataLoader Nat)
        ⟨0, [0, 1, 2]⟩).1 = [0, 1, 2, 3, 4, 5, 6] ∧
    (BatchesPerEpochDataLoader.iterCall
        (⟨⟨some 3, fun k => [3 * k, 3 * k + 1, 3 * k + 2]⟩, 7⟩
          : BatchesPerEpochDataLoader Nat)
        ⟨0, [0, 1, 2]⟩).2.epochIdx = 2 ∧
    (BatchesPerEpochDataLoader.iterCall
        (⟨⟨some 3, fun k => [3 * k, 3 * k + 1, 3 * k + 2]⟩, 7⟩
          : BatchesPerEpochDataLoader Nat)
        ⟨0, [0, 1, 2]⟩).2.rem = [7, 8] ∧
    ¬ (((BatchesPerEpochDataLoader.iterCall
        (⟨⟨some 3, fun k => [3 * k, 3 * k + 1, 3 * k + 2]⟩, 7⟩
          : BatchesPerEpochDataLoader Nat)
        ⟨0, [0, 1, 2]⟩).1.map (fun b => b / 3)).toFinset.card ≤ 2) := by
  decide

/-- C8: the capped wrapper's declared count is unknown whenever the inner
strategy's is, regardless of the cap, and is `min(C, innerCount)` otherwise. -/
theorem C8_capped_declared_count (inner : InnerStrategy β) (c : Nat) :
    (inner.num_batches_per_epoch = none →
      (⟨inner, c⟩ : MaxBatchesDataLoader β).num_batches_per_epoch = none) ∧
    (∀ b, inner.num_batches_per_epoch = some b →
      (⟨inner, c⟩ : MaxBatchesDataLoader β).num_batches_per_epoch = some (min c b)) := by
  constructor
  · intro h
    simp [MaxBatchesDataLoader.num_batches_per_epoch, h]
  · intro b hb
    simp [MaxBatchesDataLoader.num_batches_per_epoch, hb]

/-- Witness for C8: unknown inner count stays unknown under cap 5; known
inner count 10 under cap 4 gives 4. -/
theorem C8_capped_declared_count_witness :
    (⟨⟨none, fun _ => []⟩, 5⟩ : MaxBatchesDataLoader Nat).num_batches_per_epoch
      = none ∧
    (⟨⟨some 10, fun _ => []⟩, 4⟩ : MaxBatchesDataLoader Nat).num_batches_per_epoch
      = some 4 := by
  refine ⟨(C8_capped_declared_count ⟨none, fun _ => []⟩ 5).1 rfl, ?_⟩
  have h := (C8_capped_declared_count (⟨some 10, fun _ => []⟩ : InnerStrategy Nat) 4).2 10 rfl
  simpa using h

/-- C10: for every loader variant, the deprecated `__len__` returns exactly
the value of `num_batches_per_epoch` (it differs only in logging a
deprecation warning, a side effect outside the pure model). -/
theorem C10_len_equals_num_batches (l : TangoDataLoader α) :
    l.len = l.num_batches_per_epoch :=
  rfl

end Tango
